import Mathlib

/-!
# Verification of the CEM-RL training loop (torchy_baselines/cem_rl/cem_rl.py)

Shallow embedding of the CEMRL class: the `learn` outer loop, its rollout
episodes, the gradient phase, the periodic evaluation, and the `save`/`load`
path normalization.  External collaborators (environment, networks, replay
buffer, the CEM strategy) are modelled as oracles: deterministic schedules
indexed by step / generation counters, matching the sequential single-threaded
execution of the source.  Real-valued quantities (rewards, actions, noise) are
modelled with rationals, which preserves every order/arithmetic comparison the
source performs.
-/

namespace CemRl

/-! ## save / load path normalization (cem_rl.py lines 175-186)

`save`:  `if not path.endswith('.pth'): path += '.pth'`
`load`:  `if not path.endswith('.pth'): path += '.pth'`
Each method normalizes its `path` argument before touching the filesystem;
the two normalizations are embedded separately, one per source method.
Python strings are modelled as `List Char`, `str.endswith(x)` as
`x.isSuffixOf`, and `+=` as list append. -/

/-- The literal `'.pth'`. -/
def pthExt : List Char := ['.', 'p', 't', 'h']

/-- Path normalization performed by `CEMRL.save` (lines 176-177). -/
def savePathNorm (path : List Char) : List Char :=
  if pthExt.isSuffixOf path then path else path ++ pthExt

/-- Path normalization performed by `CEMRL.load` (lines 181-182). -/
def loadPathNorm (path : List Char) : List Char :=
  if pthExt.isSuffixOf path then path else path ++ pthExt

/-! ## Rollout-phase per-step action computation (cem_rl.py lines 131-160) -/

/-- Componentwise `numpy.clip` to the interval `[lo, hi]`. -/
def clip (lo hi x : ℚ) : ℚ := min (max x lo) hi

/-- Noise injection of lines 138-141: when `action_noise_std > 0` the raw
(unscaled) action is perturbed componentwise by the sampled noise vector and
the sum is clipped to `[-1, 1]`; otherwise the action passes unchanged. -/
def applyNoise (action_noise_std : ℚ) (action noise : List ℚ) : List ℚ :=
  if 0 < action_noise_std then
    (List.zipWith (· + ·) action noise).map (clip (-1) 1)
  else action

/-- Rescaling of line 144: the environment is stepped with
`self.max_action * action` (componentwise broadcast). -/
def scaledAction (max_action : ℚ) (action : List ℚ) : List ℚ :=
  action.map (fun x => max_action * x)

/-- Deterministic oracle for one episode of the environment: `reset` is the
initial observation and the `t`-th call to `env.step` (counting from 0 within
the episode) returns observation `stepObs t`, reward `stepReward t` and raw
done signal `stepDone t`.  `maxEpisodeSteps = some m` models
`hasattr(self.env, '_max_episode_steps')` with value `m`; `none` models the
attribute being absent. -/
structure EnvSched (Obs : Type) where
  reset : Obs
  stepObs : Nat → Obs
  stepReward : Nat → ℚ
  stepDone : Nat → Bool
  maxEpisodeSteps : Option Nat

/-- Deterministic oracles for action selection during a rollout:
`selectAction` models `self.select_action(obs)`, `sampleAction t` the `t`-th
draw of `self.env.action_space.sample()`, and `noise t` the `t`-th draw of
`np.random.normal(0, action_noise_std, ...)`. -/
structure ActionOracles (Obs : Type) where
  selectAction : Obs → List ℚ
  sampleAction : Nat → List ℚ
  noise : Nat → List ℚ

/-- One transition as stored by `self.replay_buffer.add(obs, new_obs, action,
reward, done_bool)` (line 155). -/
structure Transition (Obs : Type) where
  obs : Obs
  newObs : Obs
  action : List ℚ
  reward : ℚ
  doneBool : ℚ
deriving Repr, DecidableEq

/-- Mutable state of the per-candidate episode loop of lines 125-160.  `sent`
records, for verification, the exact action vector passed to `env.step` at
each step. -/
structure EpState (Obs : Type) where
  obs : Obs
  episode_reward : ℚ
  episode_timesteps : Nat
  num_timesteps : Nat
  buffer : List (Transition Obs)
  sent : List (List ℚ)
deriving Repr, DecidableEq

/-- Episode state right after `obs = self.env.reset()` (lines 125-129), with
`num_timesteps` carried in from the surrounding loop. -/
def initEpState {Obs : Type} (E : EnvSched Obs) (ts0 : Nat) : EpState Obs :=
  { obs := E.reset, episode_reward := 0, episode_timesteps := 0,
    num_timesteps := ts0, buffer := [], sent := [] }

/-- The raw (pre-noise) action of lines 133-136: uniform random sample while
`num_timesteps < start_timesteps`, policy action otherwise. -/
def rawAction {Obs : Type} (P : ActionOracles Obs) (start_timesteps : Nat)
    (s : EpState Obs) : List ℚ :=
  if s.num_timesteps < start_timesteps then P.sampleAction s.episode_timesteps
  else P.selectAction s.obs

/-- One iteration of the `while not done` body (lines 131-160): choose the
action, optionally add clipped noise, step the environment with the rescaled
action, compute the truncation-aware `done_bool` (lines 146-149), store the
transition, and advance all counters.  Returns the new state and the raw
`done` flag controlling the loop. -/
def episodeStep {Obs : Type} (E : EnvSched Obs) (P : ActionOracles Obs)
    (action_noise_std max_action : ℚ) (start_timesteps : Nat)
    (s : EpState Obs) : EpState Obs × Bool :=
  let action := applyNoise action_noise_std (rawAction P start_timesteps s)
    (P.noise s.episode_timesteps)
  let newObs := E.stepObs s.episode_timesteps
  let reward := E.stepReward s.episode_timesteps
  let done := E.stepDone s.episode_timesteps
  let done_bool : ℚ :=
    match E.maxEpisodeSteps with
    | some m => if s.episode_timesteps + 1 = m then 0 else (if done then 1 else 0)
    | none => if done then 1 else 0
  (⟨newObs, s.episode_reward + reward, s.episode_timesteps + 1,
    s.num_timesteps + 1,
    s.buffer ++ [⟨s.obs, newObs, action, reward, done_bool⟩],
    s.sent ++ [scaledAction max_action action]⟩, done)

/-- The `while not done` loop (line 131): `done` starts `False`, so the body
runs at least once; the loop exits when a step reports `done = True`.  `fuel`
bounds the number of iterations; `none` means the schedule did not terminate
the episode within `fuel` steps. -/
def runEpisode {Obs : Type} (E : EnvSched Obs) (P : ActionOracles Obs)
    (action_noise_std max_action : ℚ) (start_timesteps : Nat) :
    Nat → EpState Obs → Option (EpState Obs)
  | 0, _ => none
  | fuel + 1, s =>
    let p := episodeStep E P action_noise_std max_action start_timesteps s
    if p.2 then some p.1 else runEpisode E P action_noise_std max_action start_timesteps fuel p.1

/-! ## Gradient phase (cem_rl.py lines 73-102)

For each of the first `n_grad` population members the source loads the
candidate into actor and target, reinstalls a fresh Adam optimizer, runs
`2 * (actor_steps // self.n_grad)` inner iterations (each: sample a batch of
`batch_size`, `train_critic`; when `it % self.policy_freq == 0` also
`train_actor` on the same batch), and writes
`self.actor.parameters_to_vector()` back into `self.es_params[i]`.

The actor/critic/optimizer/replay-buffer machinery is abstracted as
`LearnerOps`, a bundle of opaque state transformers. -/

/-- Abstract interface to the TD3 machinery used by the gradient phase:
`loadActor v` / `loadTarget v` model `load_from_vector`, `reinitOpt lr`
models replacing `self.actor.optimizer` by a fresh Adam, `sample bs` models
`self.replay_buffer.sample(bs)` (returning the batch and the advanced RNG /
buffer state), `trainCritic` / `trainActor` the two update calls, and
`extract` models `parameters_to_vector`. -/
structure LearnerOps (St Vec Batch : Type) where
  loadActor : Vec → St → St
  loadTarget : Vec → St → St
  reinitOpt : ℚ → St → St
  sample : Nat → St → Batch × St
  trainCritic : Batch → St → St
  trainActor : Batch → St → St
  extract : St → Vec

/-- The inner gradient loop of lines 92-99, as a state transformer:
`for it in range(n): replay_data = sample(batch_size); train_critic;
if it % policy_freq == 0: train_actor` (on the same `replay_data`). -/
def gradInnerLoop {St Vec Batch : Type} (L : LearnerOps St Vec Batch)
    (policy_freq batch_size n : Nat) (st : St) : St :=
  (List.range n).foldl (fun s it =>
    let p := L.sample batch_size s
    let s2 := L.trainCritic p.1 p.2
    if it % policy_freq = 0 then L.trainActor p.1 s2 else s2) st

/-- The per-candidate body of lines 76-102: load the candidate into actor and
target, reinstall a fresh optimizer, run `2 * (actor_steps // n_grad)` inner
iterations, and read the trained parameter vector back out. -/
def trainCandidate {St Vec Batch : Type} (L : LearnerOps St Vec Batch)
    (policy_freq batch_size actor_steps n_grad : Nat) (learning_rate : ℚ)
    (v : Vec) (st : St) : St × Vec :=
  let st1 := L.loadActor v st
  let st2 := L.loadTarget v st1
  let st3 := L.reinitOpt learning_rate st2
  let st4 := gradInnerLoop L policy_freq batch_size (2 * (actor_steps / n_grad)) st3
  (st4, L.extract st4)

/-- Observable event trace of one inner-loop iteration `it` (lines 93-99):
a batch sample of the given size, a critic update on that batch, and — exactly
when `it % policy_freq = 0` — an actor update on the same batch.  Batches are
identified by the iteration index that sampled them, since each iteration
draws exactly one fresh batch. -/
inductive GradEvent where
  | sample (it : Nat) (batchSize : Nat)
  | criticUpdate (it : Nat)
  | actorUpdate (it : Nat)
deriving Repr, DecidableEq

/-- Event trace of inner-loop iteration `it`. -/
def gradIterEvents (policy_freq batch_size it : Nat) : List GradEvent :=
  [GradEvent.sample it batch_size, GradEvent.criticUpdate it] ++
    (if it % policy_freq = 0 then [GradEvent.actorUpdate it] else [])

/-- Event trace of the whole inner loop of lines 92-99:
`2 * (actor_steps // n_grad)` iterations in order. -/
def gradInnerEvents (policy_freq batch_size actor_steps n_grad : Nat) : List GradEvent :=
  ((List.range (2 * (actor_steps / n_grad))).map
    (gradIterEvents policy_freq batch_size)).flatten

/-- The `for i in range(n_grad)` loop of line 76, acting in place on the
population list: at index `i` it reads `es_params[i]` (an out-of-range index
fails, modelling Python's `IndexError`, hence the `Option`), applies the
per-candidate step `f`, and writes the result back to slot `i`.  The first
argument is the number of remaining iterations (`n_grad - i`). -/
def forSlots {St Vec : Type} (f : Vec → St → St × Vec) :
    Nat → Nat → St → List Vec → Option (St × List Vec)
  | 0, _, st, pop => some (st, pop)
  | rem + 1, i, st, pop =>
    match pop.get? i with
    | none => none
    | some v =>
      let p := f v st
      forSlots f rem (i + 1) p.1 (pop.set i p.2)

/-- The whole gradient phase of lines 76-102: the in-place loop over the first
`n_grad` population slots, each slot trained by `trainCandidate`. -/
def gradPhase {St Vec Batch : Type} (L : LearnerOps St Vec Batch)
    (policy_freq batch_size actor_steps n_grad : Nat) (learning_rate : ℚ)
    (st : St) (pop : List Vec) : Option (St × List Vec) :=
  forSlots (trainCandidate L policy_freq batch_size actor_steps n_grad learning_rate)
    n_grad 0 st pop

/-- Functional description of the gradient phase: train the first `n` list
entries in order, threading the learner state left to right, and keep the
remaining entries untouched. -/
def trainSlots {St Vec : Type} (f : Vec → St → St × Vec) :
    St → Nat → List Vec → St × List Vec
  | st, 0, pop => (st, pop)
  | st, _ + 1, [] => (st, [])
  | st, n + 1, v :: vs =>
    let p := f v st
    let q := trainSlots f p.1 n vs
    (q.1, p.2 :: q.2)

/-! ## Constructor (cem_rl.py lines 21-52)

`CEMRL.__init__` forwards to the TD3 constructor and then stores the CEM
hyperparameters on the instance.  It contains no validation of any kind; in
particular no relation between `n_grad` and `pop_size` is checked.  The
embedding returns `Except String` so that "raises a structural error at
construction" is a statable outcome; the source never raises, so the
result is always `.ok`. -/

/-- The CEM-specific configuration stored by `CEMRL.__init__`. -/
structure CEMRLConfig where
  sigma_init : ℚ
  pop_size : Nat
  damp : ℚ
  damp_limit : ℚ
  elitism : Bool
  n_grad : Nat
  policy_freq : Nat
  batch_size : Nat
  action_noise_std : ℚ
  start_timesteps : Nat
  learning_rate : ℚ
deriving Repr, DecidableEq

/-- `CEMRL.__init__` (lines 21-44): store the hyperparameters; there is no
validation branch, so construction succeeds for every argument combination. -/
def cemrlInit (sigma_init : ℚ) (pop_size : Nat) (damp damp_limit : ℚ)
    (elitism : Bool) (n_grad policy_freq batch_size : Nat)
    (learning_rate : ℚ) (action_noise_std : ℚ) (start_timesteps : Nat) :
    Except String CEMRLConfig :=
  Except.ok
    { sigma_init := sigma_init, pop_size := pop_size, damp := damp,
      damp_limit := damp_limit, elitism := elitism, n_grad := n_grad,
      policy_freq := policy_freq, batch_size := batch_size,
      action_noise_std := action_noise_std, start_timesteps := start_timesteps,
      learning_rate := learning_rate }

/-! ## The outer `learn` loop (cem_rl.py lines 54-173)

Counter-level embedding of one generation and of the `while
self.num_timesteps < total_timesteps` loop.  Phase bodies that do not touch
the counters (ask, gradient updates, rollout contents, tell) are abstracted
into per-generation oracles; each generation emits a `GenRecord` describing
which phases ran and the counter values at its start. -/

/-- Possible results of the Python callback, compared by identity against
`False` at line 70 (`callback(locals(), globals()) is False`): only the
`False` singleton stops training; `True`, `None` and every other value
continue. -/
inductive PyRet where
  | pyFalse
  | pyTrue
  | pyNone
  | pyOther
deriving Repr, DecidableEq

/-- Events of the periodic-evaluation branch (lines 105-111):
`self.actor.load_from_vector(self.es.mu)` then `evaluate_policy(...)`. -/
inductive EvalEv where
  | loadMu
  | evalPolicy
deriving Repr, DecidableEq

/-- Per-generation oracles: `hasCb` models `callback is not None`, `cbRet g`
the callback's return value at the generation whose (1-based) index is `g`,
and `steps g` the total number of environment steps accumulated into
`actor_steps` by generation `g`'s rollout phase (the sum of the episode
lengths over the whole population). -/
structure LoopOracles where
  hasCb : Bool
  cbRet : Nat → PyRet
  steps : Nat → Nat

/-- The counters threaded through the `learn` loop (lines 57-63): the
generation index `gen` is instrumentation counting callback invocations,
starting at 1. -/
structure LoopState where
  num_timesteps : Nat
  timesteps_since_eval : Nat
  actor_steps : Nat
  gen : Nat
deriving Repr, DecidableEq

/-- Observable record of one generation of the loop body (lines 65-172). -/
structure GenRecord where
  gen : Nat
  tsBefore : Nat
  tseBefore : Nat
  stopped : Bool
  ranGradient : Bool
  ranEval : Bool
  tseAfterEvalCheck : Nat
  evalEvents : List EvalEv
  rolloutSteps : Nat
  ranTell : Bool
deriving Repr, DecidableEq

/-- One iteration of the outer loop body (lines 65-172): reset the fitness
list and ask the strategy (line 65-66); if a callback is present and returns
exactly `False`, break (lines 68-71) — the counters are untouched; otherwise
run the gradient phase iff `num_timesteps > 0` (line 73), run the periodic
evaluation iff `0 < eval_freq <= timesteps_since_eval` (lines 105-106,
reducing the counter modulo `eval_freq` and loading `es.mu` before
`evaluate_policy`), then the rollout phase (lines 118-167: `actor_steps`
reset to 0 and accumulated, `num_timesteps` incremented per environment
step), `es.tell` (line 169) and `timesteps_since_eval += actor_steps`
(line 172). -/
def genStep (o : LoopOracles) (eval_freq : Int) (s : LoopState) :
    LoopState × GenRecord :=
  if o.hasCb && decide (o.cbRet s.gen = PyRet.pyFalse) then
    (s, { gen := s.gen, tsBefore := s.num_timesteps,
          tseBefore := s.timesteps_since_eval, stopped := true,
          ranGradient := false, ranEval := false,
          tseAfterEvalCheck := s.timesteps_since_eval, evalEvents := [],
          rolloutSteps := 0, ranTell := false })
  else
    let ranGrad := decide (0 < s.num_timesteps)
    let evalCond := decide (0 < eval_freq ∧ eval_freq ≤ (s.timesteps_since_eval : Int))
    let tse1 := if evalCond then s.timesteps_since_eval % eval_freq.toNat
      else s.timesteps_since_eval
    let st := o.steps s.gen
    (⟨s.num_timesteps + st, tse1 + st, st, s.gen + 1⟩,
     { gen := s.gen, tsBefore := s.num_timesteps,
       tseBefore := s.timesteps_since_eval, stopped := false,
       ranGradient := ranGrad, ranEval := evalCond,
       tseAfterEvalCheck := tse1,
       evalEvents := if evalCond then [EvalEv.loadMu, EvalEv.evalPolicy] else [],
       rolloutSteps := st, ranTell := true })

/-- The `while self.num_timesteps < total_timesteps` loop (lines 63-173),
bounded by `fuel` iterations; returns the final counters and the list of
generation records in execution order.  A generation whose callback breaks is
recorded as its (`stopped`) last record. -/
def learnLoop (o : LoopOracles) (eval_freq : Int) (total : Nat) :
    Nat → LoopState → LoopState × List GenRecord
  | 0, s => (s, [])
  | fuel + 1, s =>
    if s.num_timesteps < total then
      let p := genStep o eval_freq s
      if p.2.stopped then (p.1, [p.2])
      else
        let q := learnLoop o eval_freq total fuel p.1
        (q.1, p.2 :: q.2)
    else (s, [])

/-- Initial counters of `learn` (lines 57-58) for a model whose base class
starts with `num_timesteps = 0`: generation indices are 1-based. -/
def initLoopState : LoopState :=
  { num_timesteps := 0, timesteps_since_eval := 0, actor_steps := 0, gen := 1 }

/-! ## Helper lemmas -/

/-- The done flag that lines 146-149 compute for the `t`-th step of an
episode (with `episode_timesteps = t` at the time of the check). -/
def scheduledDoneFlag {Obs : Type} (E : EnvSched Obs) (t : Nat) : ℚ :=
  match E.maxEpisodeSteps with
  | some m => if t + 1 = m then 0 else (if E.stepDone t then 1 else 0)
  | none => if E.stepDone t then 1 else 0

lemma clip_lower (x : ℚ) : -1 ≤ clip (-1) 1 x :=
  le_min (le_max_right x (-1)) (by norm_num)

lemma clip_upper (x : ℚ) : clip (-1) 1 x ≤ 1 := min_le_right _ _

lemma applyNoise_mem_bounds {std : ℚ} (hstd : 0 < std) (a n : List ℚ) :
    ∀ x ∈ applyNoise std a n, -1 ≤ x ∧ x ≤ 1 := by
  intro x hx
  unfold applyNoise at hx
  rw [if_pos hstd] at hx
  obtain ⟨y, -, rfl⟩ := List.mem_map.mp hx
  exact ⟨clip_lower y, clip_upper y⟩

lemma episodeStep_buffer {Obs : Type} (E : EnvSched Obs) (P : ActionOracles Obs)
    (std ma : ℚ) (stt : Nat) (s : EpState Obs) :
    ∃ tr : Transition Obs,
      (episodeStep E P std ma stt s).1.buffer = s.buffer ++ [tr] ∧
      tr.doneBool = scheduledDoneFlag E s.episode_timesteps := by
  refine ⟨_, rfl, ?_⟩
  simp only [episodeStep, scheduledDoneFlag]

lemma episodeStep_timesteps {Obs : Type} (E : EnvSched Obs) (P : ActionOracles Obs)
    (std ma : ℚ) (stt : Nat) (s : EpState Obs) :
    (episodeStep E P std ma stt s).1.episode_timesteps = s.episode_timesteps + 1 := rfl

lemma episodeStep_sent {Obs : Type} (E : EnvSched Obs) (P : ActionOracles Obs)
    (std ma : ℚ) (stt : Nat) (s : EpState Obs) :
    (episodeStep E P std ma stt s).1.sent =
      s.sent ++ [scaledAction ma (applyNoise std (rawAction P stt s)
        (P.noise s.episode_timesteps))] := rfl

lemma runEpisode_flags_aux {Obs : Type} (E : EnvSched Obs) (P : ActionOracles Obs)
    (std ma : ℚ) (stt : Nat) :
    ∀ (fuel : Nat) (s s' : EpState Obs),
      runEpisode E P std ma stt fuel s = some s' →
      s.episode_timesteps = s.buffer.length →
      (∀ t tr, s.buffer.get? t = some tr → tr.doneBool = scheduledDoneFlag E t) →
      ∀ t tr, s'.buffer.get? t = some tr → tr.doneBool = scheduledDoneFlag E t := by
  intro fuel
  induction fuel with
  | zero => intro s s' h; simp [runEpisode] at h
  | succ n ih =>
    intro s s' h hlen hinv
    obtain ⟨tr0, hbuf, hflag⟩ := episodeStep_buffer E P std ma stt s
    have hinv1 : ∀ t tr, (episodeStep E P std ma stt s).1.buffer.get? t = some tr →
        tr.doneBool = scheduledDoneFlag E t := by
      intro t tr htr
      rw [hbuf] at htr
      rcases lt_trichotomy t s.buffer.length with hlt | heq | hgt
      · rw [List.get?_append hlt] at htr
        exact hinv t tr htr
      · subst heq
        rw [List.get?_concat_length] at htr
        cases htr
        rw [hflag, hlen]
      · have : (s.buffer ++ [tr0]).get? t = none := by
          rw [List.get?_eq_none]
          simp only [List.length_append, List.length_singleton]
          omega
        rw [this] at htr
        cases htr
    have hlen1 : (episodeStep E P std ma stt s).1.episode_timesteps =
        (episodeStep E P std ma stt s).1.buffer.length := by
      rw [episodeStep_timesteps, hbuf]
      simp [hlen]
    rw [runEpisode] at h
    by_cases hd : (episodeStep E P std ma stt s).2
    · simp only [hd, if_pos] at h
      cases h
      exact hinv1
    · simp only [hd] at h
      simp only [Bool.false_eq_true, if_false] at h
      exact ih _ _ h hlen1 hinv1

lemma runEpisode_sent_aux {Obs : Type} (E : EnvSched Obs) (P : ActionOracles Obs)
    (std ma : ℚ) (stt : Nat) (hstd : 0 < std) :
    ∀ (fuel : Nat) (s s' : EpState Obs),
      runEpisode E P std ma stt fuel s = some s' →
      (∀ a ∈ s.sent, ∃ b, a = scaledAction ma b ∧ ∀ x ∈ b, -1 ≤ x ∧ x ≤ 1) →
      ∀ a ∈ s'.sent, ∃ b, a = scaledAction ma b ∧ ∀ x ∈ b, -1 ≤ x ∧ x ≤ 1 := by
  intro fuel
  induction fuel with
  | zero => intro s s' h; simp [runEpisode] at h
  | succ n ih =>
    intro s s' h hinv
    have hinv1 : ∀ a ∈ (episodeStep E P std ma stt s).1.sent,
        ∃ b, a = scaledAction ma b ∧ ∀ x ∈ b, -1 ≤ x ∧ x ≤ 1 := by
      intro a ha
      rw [episodeStep_sent] at ha
      rcases List.mem_append.mp ha with hmem | hmem
      · exact hinv a hmem
      · rcases List.mem_singleton.mp hmem with rfl
        exact ⟨_, rfl, applyNoise_mem_bounds hstd _ _⟩
    rw [runEpisode] at h
    by_cases hd : (episodeStep E P std ma stt s).2
    · simp only [hd, if_pos] at h
      cases h
      exact hinv1
    · simp only [hd] at h
      simp only [Bool.false_eq_true, if_false] at h
      exact ih _ _ h hinv1

/-! ## Claim theorems -/

/-- C10: `save(p)` and `load(p)` normalize the path identically — each
appends `.pth` exactly when `p` does not already end with `.pth` and leaves
`p` unchanged otherwise, so `load` with the same argument targets exactly the
file `save` wrote. -/
theorem c10_save_load_same_path (p : List Char) :
    savePathNorm p = loadPathNorm p ∧
    (pthExt.isSuffixOf p = true → savePathNorm p = p) ∧
    (pthExt.isSuffixOf p = false → savePathNorm p = p ++ pthExt) := by
  refine ⟨rfl, fun h => ?_, fun h => ?_⟩ <;> simp [savePathNorm, h]

/-- Witness for C10 at the paths `model` and `model.pth`. -/
theorem c10_save_load_same_path_witness :
    savePathNorm ['m', 'o', 'd', 'e', 'l'] = loadPathNorm ['m', 'o', 'd', 'e', 'l'] ∧
    savePathNorm ['m', 'o', 'd', 'e', 'l'] = ['m', 'o', 'd', 'e', 'l'] ++ pthExt ∧
    loadPathNorm (['m', 'o', 'd', 'e', 'l'] ++ pthExt) = ['m', 'o', 'd', 'e', 'l'] ++ pthExt :=
  ⟨(c10_save_load_same_path ['m', 'o', 'd', 'e', 'l']).1,
   (c10_save_load_same_path ['m', 'o', 'd', 'e', 'l']).2.2 (by decide),
   ((c10_save_load_same_path (['m', 'o', 'd', 'e', 'l'] ++ pthExt)).1).symm.trans
     ((c10_save_load_same_path (['m', 'o', 'd', 'e', 'l'] ++ pthExt)).2.1 (by decide))⟩

/-- C1: every transition stored in the replay buffer during a rollout episode
carries the truncation-aware done flag of lines 146-149: if the environment
exposes `_max_episode_steps = m` and the stored step is exactly the `m`-th of
the episode (`t + 1 = m` for the 0-based step index `t`), the stored flag is
`0` regardless of the raw done signal; otherwise the raw done signal of that
step is stored as `1` or `0`. -/
theorem c1_stored_done_flag_rule {Obs : Type} (E : EnvSched Obs)
    (P : ActionOracles Obs) (std ma : ℚ) (stt ts0 fuel : Nat) (s' : EpState Obs)
    (h : runEpisode E P std ma stt fuel (initEpState E ts0) = some s') :
    ∀ t tr, s'.buffer.get? t = some tr → tr.doneBool = scheduledDoneFlag E t :=
  runEpisode_flags_aux E P std ma stt fuel _ s' h rfl (by intro t tr htr; cases htr)

/-- C8: whenever `action_noise_std > 0`, every action passed to `env.step`
during a rollout episode is the rescaling (by `max_action`) of a pre-rescale
action whose components all lie in `[-1, 1]`. -/
theorem c8_noise_clipped_prescale {Obs : Type} (E : EnvSched Obs)
    (P : ActionOracles Obs) (std ma : ℚ) (stt ts0 fuel : Nat) (s' : EpState Obs)
    (hstd : 0 < std)
    (h : runEpisode E P std ma stt fuel (initEpState E ts0) = some s') :
    ∀ a ∈ s'.sent, ∃ b, a = scaledAction ma b ∧ ∀ x ∈ b, -1 ≤ x ∧ x ≤ 1 :=
  runEpisode_sent_aux E P std ma stt hstd fuel _ s' h (by intro a ha; cases ha)

/-- Demo environment for the C1 witness: `_max_episode_steps = 2`, raw done
signal `True` exactly at the second step. -/
def demoEnvC1 : EnvSched Nat :=
  { reset := 0, stepObs := fun t => t + 1, stepReward := fun _ => 1,
    stepDone := fun t => decide (t = 1), maxEpisodeSteps := some 2 }

/-- Constant action oracles for the C1 witness. -/
def demoActC1 : ActionOracles Nat :=
  { selectAction := fun _ => [0], sampleAction := fun _ => [0], noise := fun _ => [0] }

/-- The final episode state of the C1 demo rollout. -/
def demoFinalC1 : EpState Nat :=
  (runEpisode demoEnvC1 demoActC1 0 1 0 5 (initEpState demoEnvC1 0)).getD
    (initEpState demoEnvC1 0)

/-- The transition the C1 demo episode stores at buffer index 1. -/
def demoTrC1 : Transition Nat :=
  (demoFinalC1.buffer.get? 1).getD ⟨0, 0, [], 0, 0⟩

/-- Witness for C1: in the demo episode the second step hits the
`_max_episode_steps = 2` limit with a raw done signal of `True`, and the flag
stored in the buffer is nevertheless `0`. -/
theorem c1_stored_done_flag_rule_witness :
    demoEnvC1.stepDone 1 = true ∧ demoTrC1.doneBool = 0 :=
  ⟨rfl, by
    have h := c1_stored_done_flag_rule demoEnvC1 demoActC1 0 1 0 0 5 demoFinalC1
      rfl 1 demoTrC1 rfl
    rw [h]; rfl⟩

/-- Demo environment for the C8 witness: the episode ends after one step. -/
def demoEnvC8 : EnvSched Nat :=
  { reset := 0, stepObs := fun t => t + 1, stepReward := fun _ => 1,
    stepDone := fun _ => true, maxEpisodeSteps := none }

/-- Action oracles for the C8 witness: the raw action `[5, -3]` lies far
outside `[-1, 1]` before clipping. -/
def demoActC8 : ActionOracles Nat :=
  { selectAction := fun _ => [5, -3], sampleAction := fun _ => [5, -3],
    noise := fun _ => [0, 0] }

/-- The final episode state of the C8 demo rollout
(`action_noise_std = 1`, `max_action = 2`). -/
def demoFinalC8 : EpState Nat :=
  (runEpisode demoEnvC8 demoActC8 1 2 0 3 (initEpState demoEnvC8 0)).getD
    (initEpState demoEnvC8 0)

/-- The first (and only) action the C8 demo episode passes to `env.step`. -/
def demoSentC8 : List ℚ := (demoFinalC8.sent.get? 0).getD []

/-- Witness for C8: the action the demo episode passes to `env.step` is the
`max_action = 2` rescaling of a clipped pre-rescale action inside `[-1, 1]`,
even though the raw policy action was `[5, -3]`. -/
theorem c8_noise_clipped_prescale_witness :
    ∃ b, demoSentC8 = scaledAction 2 b ∧ ∀ x ∈ b, -1 ≤ x ∧ x ≤ 1 :=
  c8_noise_clipped_prescale demoEnvC8 demoActC8 1 2 0 0 3 demoFinalC8
    (by norm_num) rfl demoSentC8
    (List.get?_mem (show demoFinalC8.sent.get? 0 = some demoSentC8 from rfl))

lemma mem_ite_singleton {α : Type} (c : Prop) [Decidable c] (x y : α) :
    (x ∈ if c then [y] else []) ↔ (c ∧ x = y) := by
  split <;> simp [*]

lemma gradIterEvents_countP_sample (policy_freq batch_size it : Nat) :
    (gradIterEvents policy_freq batch_size it).countP
      (fun e => match e with | GradEvent.sample _ _ => true | _ => false) = 1 := by
  unfold gradIterEvents
  rw [List.countP_append]
  split <;> rfl

/-- C2: the inner gradient loop runs exactly `2 * (actor_steps / n_grad)`
iterations; iteration `it` samples one batch of size `batch_size` and runs a
critic update on it, and runs the delayed actor update (on the same batch,
identified by its iteration index) exactly when `it % policy_freq = 0`; with
`actor_steps = 0` the loop is empty and the candidate's round trip through
the actor is load → fresh optimizer → extract with no training.  The last
conjunct records where `actor_steps` comes from: after a non-stopped
generation the loop state carries that generation's rollout total as
`actor_steps`, which is the value the next generation's gradient phase
reads. -/
theorem c2_gradient_inner_loop_trace (policy_freq batch_size actor_steps n_grad : Nat) :
    ((gradInnerEvents policy_freq batch_size actor_steps n_grad).countP
        (fun e => match e with | GradEvent.sample _ _ => true | _ => false) =
      2 * (actor_steps / n_grad)) ∧
    (∀ it bs, GradEvent.sample it bs ∈ gradInnerEvents policy_freq batch_size actor_steps n_grad ↔
      (it < 2 * (actor_steps / n_grad) ∧ bs = batch_size)) ∧
    (∀ it, GradEvent.criticUpdate it ∈ gradInnerEvents policy_freq batch_size actor_steps n_grad ↔
      it < 2 * (actor_steps / n_grad)) ∧
    (∀ it, GradEvent.actorUpdate it ∈ gradInnerEvents policy_freq batch_size actor_steps n_grad ↔
      (it < 2 * (actor_steps / n_grad) ∧ it % policy_freq = 0)) ∧
    (actor_steps = 0 → gradInnerEvents policy_freq batch_size actor_steps n_grad = []) ∧
    (∀ (St Vec Batch : Type) (L : LearnerOps St Vec Batch) (lr : ℚ) (v : Vec) (st : St),
      actor_steps = 0 →
        trainCandidate L policy_freq batch_size actor_steps n_grad lr v st =
          (L.reinitOpt lr (L.loadTarget v (L.loadActor v st)),
           L.extract (L.reinitOpt lr (L.loadTarget v (L.loadActor v st))))) ∧
    (∀ (o : LoopOracles) (ef : Int) (s : LoopState),
      (o.hasCb && decide (o.cbRet s.gen = PyRet.pyFalse)) = false →
        (genStep o ef s).1.actor_steps = o.steps s.gen) := by
  refine ⟨?_, ?_, ?_, ?_, ?_, ?_, ?_⟩
  · rw [gradInnerEvents, List.countP_flatten, List.map_map]
    have : ((List.range (2 * (actor_steps / n_grad))).map
        (List.countP (fun e => match e with | GradEvent.sample _ _ => true | _ => false) ∘
          gradIterEvents policy_freq batch_size)) =
        List.replicate (2 * (actor_steps / n_grad)) 1 := by
      rw [List.eq_replicate_iff]
      refine ⟨by simp, ?_⟩
      intro b hb
      obtain ⟨a, -, rfl⟩ := List.mem_map.mp hb
      exact gradIterEvents_countP_sample policy_freq batch_size a
    rw [this, List.sum_replicate, smul_eq_mul, mul_one]
  · intro it bs
    simp only [gradInnerEvents, List.mem_flatten, List.mem_map, List.mem_range,
      exists_exists_and_eq_and, gradIterEvents, List.mem_append, List.mem_cons,
      List.not_mem_nil, or_false, mem_ite_singleton]
    constructor
    · rintro ⟨a, ha, (h | h) | ⟨-, h⟩⟩ <;> cases h
      exact ⟨ha, rfl⟩
    · rintro ⟨hlt, rfl⟩
      exact ⟨it, hlt, Or.inl (Or.inl rfl)⟩
  · intro it
    simp only [gradInnerEvents, List.mem_flatten, List.mem_map, List.mem_range,
      exists_exists_and_eq_and, gradIterEvents, List.mem_append, List.mem_cons,
      List.not_mem_nil, or_false, mem_ite_singleton]
    constructor
    · rintro ⟨a, ha, (h | h) | ⟨-, h⟩⟩ <;> cases h
      exact ha
    · intro hlt
      exact ⟨it, hlt, Or.inl (Or.inr rfl)⟩
  · intro it
    simp only [gradInnerEvents, List.mem_flatten, List.mem_map, List.mem_range,
      exists_exists_and_eq_and, gradIterEvents, List.mem_append, List.mem_cons,
      List.not_mem_nil, or_false, mem_ite_singleton]
    constructor
    · rintro ⟨a, ha, (h | h) | ⟨hm, h⟩⟩ <;> cases h
      exact ⟨ha, hm⟩
    · rintro ⟨hlt, hm⟩
      exact ⟨it, hlt, Or.inr ⟨hm, rfl⟩⟩
  · rintro rfl
    simp [gradInnerEvents]
  · intro St Vec Batch L lr v st h
    subst h
    simp [trainCandidate, gradInnerLoop]
  · intro o ef s h
    rw [genStep, if_neg (by simp [h])]

/-- Witness for C2 at `policy_freq = 2`, `batch_size = 100`,
`actor_steps = 10`, `n_grad = 5` (hence 4 iterations): iteration 2 runs the
actor update, iteration 1 does not, and `actor_steps = 0` yields an empty
inner loop. -/
theorem c2_gradient_inner_loop_trace_witness :
    GradEvent.actorUpdate 2 ∈ gradInnerEvents 2 100 10 5 ∧
    GradEvent.criticUpdate 3 ∈ gradInnerEvents 2 100 10 5 ∧
    (¬ GradEvent.actorUpdate 1 ∈ gradInnerEvents 2 100 10 5) ∧
    gradInnerEvents 2 100 0 5 = [] ∧
    (genStep ⟨false, fun _ => PyRet.pyNone, fun _ => 9⟩ (-1) initLoopState).1.actor_steps = 9 :=
  ⟨((c2_gradient_inner_loop_trace 2 100 10 5).2.2.2.1 2).mpr (by decide),
   ((c2_gradient_inner_loop_trace 2 100 10 5).2.2.1 3).mpr (by decide),
   fun h => absurd (((c2_gradient_inner_loop_trace 2 100 10 5).2.2.2.1 1).mp h) (by decide),
   (c2_gradient_inner_loop_trace 2 100 0 5).2.2.2.2.1 rfl,
   (c2_gradient_inner_loop_trace 2 100 0 5).2.2.2.2.2.2
     ⟨false, fun _ => PyRet.pyNone, fun _ => 9⟩ (-1) initLoopState (by decide)⟩

lemma forSlots_shift {St Vec : Type} (f : Vec → St → St × Vec) :
    ∀ (rem i : Nat) (st : St) (w : Vec) (vs : List Vec),
      forSlots f rem (i + 1) st (w :: vs) =
        Option.map (fun p => (p.1, w :: p.2)) (forSlots f rem i st vs) := by
  intro rem
  induction rem with
  | zero => intro i st w vs; rfl
  | succ n ih =>
    intro i st w vs
    rw [forSlots, forSlots]
    simp only [List.get?_cons_succ]
    cases h : vs.get? i with
    | none => rfl
    | some v =>
      simp only []
      rw [List.set_cons_succ]
      exact ih (i + 1) (f v st).1 w (vs.set i (f v st).2)

lemma forSlots_eq_trainSlots {St Vec : Type} (f : Vec → St → St × Vec) :
    ∀ (pop : List Vec) (n : Nat) (st : St), n ≤ pop.length →
      forSlots f n 0 st pop = some (trainSlots f st n pop) := by
  intro pop
  induction pop with
  | nil =>
    intro n st h
    rw [Nat.le_zero.mp h]
    rfl
  | cons v vs ih =>
    intro n st h
    cases n with
    | zero => rfl
    | succ m =>
      rw [forSlots]
      simp only [List.get?_cons_zero, List.set_cons_zero]
      rw [forSlots_shift, ih m (f v st).1 (Nat.succ_le_succ_iff.mp h)]
      rfl

lemma trainSlots_length {St Vec : Type} (f : Vec → St → St × Vec) :
    ∀ (pop : List Vec) (n : Nat) (st : St),
      ((trainSlots f st n pop).2).length = pop.length := by
  intro pop
  induction pop with
  | nil => intro n st; cases n <;> rfl
  | cons v vs ih =>
    intro n st
    cases n with
    | zero => rfl
    | succ m => simpa [trainSlots] using ih m (f v st).1

lemma trainSlots_get_ge {St Vec : Type} (f : Vec → St → St × Vec) :
    ∀ (pop : List Vec) (n : Nat) (st : St) (j : Nat), n ≤ j →
      ((trainSlots f st n pop).2).get? j = pop.get? j := by
  intro pop
  induction pop with
  | nil => intro n st j hj; cases n <;> rfl
  | cons v vs ih =>
    intro n st j hj
    cases n with
    | zero => rfl
    | succ m =>
      cases j with
      | zero => omega
      | succ j' =>
        simpa [trainSlots] using ih m (f v st).1 j' (Nat.succ_le_succ_iff.mp hj)

lemma trainSlots_get_lt {St Vec : Type} (f : Vec → St → St × Vec) :
    ∀ (pop : List Vec) (n : Nat) (st : St) (i : Nat), i < n → i < pop.length →
      ∃ stmid v, pop.get? i = some v ∧
        ((trainSlots f st n pop).2).get? i = some ((f v stmid).2) := by
  intro pop
  induction pop with
  | nil => intro n st i hn hlen; simp at hlen
  | cons v vs ih =>
    intro n st i hn hlen
    cases n with
    | zero => omega
    | succ m =>
      cases i with
      | zero => exact ⟨st, v, rfl, rfl⟩
      | succ i' =>
        obtain ⟨stmid, w, h1, h2⟩ := ih m (f v st).1 i'
          (Nat.succ_lt_succ_iff.mp hn) (by simpa using Nat.succ_lt_succ_iff.mp hlen)
        exact ⟨stmid, w, h1, by simpa [trainSlots] using h2⟩

lemma forSlots_oob {St Vec : Type} (f : Vec → St → St × Vec) :
    ∀ (rem i : Nat) (st : St) (pop : List Vec),
      i ≤ pop.length → pop.length < i + rem → forSlots f rem i st pop = none := by
  intro rem
  induction rem with
  | zero => intro i st pop h1 h2; omega
  | succ n ih =>
    intro i st pop h1 h2
    rw [forSlots]
    cases h : pop.get? i with
    | none => rfl
    | some v =>
      have hlt : i < pop.length := by
        have := List.get?_eq_some.mp h
        exact this.1
      simp only []
      exact ih (i + 1) (f v st).1 (pop.set i (f v st).2)
        (by simpa using hlt) (by simp only [List.length_set]; omega)

/-- C9: the gradient phase succeeds when `n_grad ≤ pop_size`, mutates the
population in place — it equals the functional description `trainSlots` that
trains the first `n_grad` slots in order, threading the learner state — and
every slot with index `≥ n_grad` is exactly as sampled, while every slot
`i < n_grad` is overwritten with the gradient-trained version of the vector
that was sampled into that slot. -/
theorem c9_gradient_phase_in_place {St Vec Batch : Type} (L : LearnerOps St Vec Batch)
    (policy_freq batch_size actor_steps n_grad : Nat) (lr : ℚ) (st : St)
    (pop : List Vec) (h : n_grad ≤ pop.length) :
    gradPhase L policy_freq batch_size actor_steps n_grad lr st pop =
      some (trainSlots (trainCandidate L policy_freq batch_size actor_steps n_grad lr)
        st n_grad pop) ∧
    ((trainSlots (trainCandidate L policy_freq batch_size actor_steps n_grad lr)
        st n_grad pop).2).length = pop.length ∧
    (∀ j, n_grad ≤ j →
      ((trainSlots (trainCandidate L policy_freq batch_size actor_steps n_grad lr)
          st n_grad pop).2).get? j = pop.get? j) ∧
    (∀ i, i < n_grad → ∃ stmid v, pop.get? i = some v ∧
      ((trainSlots (trainCandidate L policy_freq batch_size actor_steps n_grad lr)
          st n_grad pop).2).get? i =
        some ((trainCandidate L policy_freq batch_size actor_steps n_grad lr v stmid).2)) :=
  ⟨forSlots_eq_trainSlots _ pop n_grad st h,
   trainSlots_length _ pop n_grad st,
   fun j hj => trainSlots_get_ge _ pop n_grad st j hj,
   fun i hi => trainSlots_get_lt _ pop n_grad st i hi (lt_of_lt_of_le hi h)⟩

/-- A small concrete `LearnerOps` instance over `Nat` states and vectors. -/
def lops0 : LearnerOps Nat Nat Nat :=
  { loadActor := fun v s => s + v, loadTarget := fun v s => s + v,
    reinitOpt := fun _ s => s, sample := fun bs s => (s, s + bs),
    trainCritic := fun b s => s + b, trainActor := fun b s => s + b,
    extract := fun s => s }

/-- The per-candidate training step of the C9 witness. -/
def tc0 : Nat → Nat → Nat × Nat := trainCandidate lops0 2 100 4 2 1

/-- Witness for C9 on the population `[10, 20, 30]` with `n_grad = 2`: the
phase succeeds, slot 2 is untouched. -/
theorem c9_gradient_phase_in_place_witness :
    gradPhase lops0 2 100 4 2 1 0 [10, 20, 30] = some (trainSlots tc0 0 2 [10, 20, 30]) ∧
    ((trainSlots tc0 0 2 [10, 20, 30]).2).get? 2 = some 30 :=
  ⟨(c9_gradient_phase_in_place lops0 2 100 4 2 1 0 [10, 20, 30] (by decide)).1,
   ((c9_gradient_phase_in_place lops0 2 100 4 2 1 0 [10, 20, 30] (by decide)).2.2.1
      2 (le_refl 2)).trans rfl⟩

/-- A trivial `LearnerOps` instance used to exercise the gradient phase on an
undersized population. -/
def lopsTriv : LearnerOps Unit Nat Unit :=
  { loadActor := fun _ s => s, loadTarget := fun _ s => s,
    reinitOpt := fun _ s => s, sample := fun _ s => ((), s),
    trainCritic := fun _ s => s, trainActor := fun _ s => s,
    extract := fun _ => 0 }

/-- Counterexample for C6: construction with `n_grad = 11 > pop_size = 10`
succeeds (no validation raises), and the invalid configuration surfaces
mid-loop: the gradient phase over a 10-element population with `n_grad = 11`
fails with an out-of-range population index. -/
theorem c6_counterexample :
    (cemrlInit 1 10 1 1 false 11 2 100 1 0 100).isOk = true ∧
    gradPhase lopsTriv 2 100 50 11 1 () (List.replicate 10 0) = none :=
  ⟨rfl, by decide⟩

/-- C6 amended: the configuration `n_grad > pop_size` is NOT rejected at
construction — `CEMRL.__init__` performs no validation and always succeeds —
and the invalid configuration is instead discovered mid-loop during the
gradient phase, as an out-of-range index into the sampled population (whose
length is `pop_size`). -/
theorem c6_amended_no_validation {St Vec Batch : Type} (L : LearnerOps St Vec Batch)
    (sigma_init damp damp_limit lr noise_std : ℚ) (elitism : Bool)
    (pop_size n_grad policy_freq batch_size start_timesteps actor_steps : Nat)
    (st : St) (pop : List Vec) (hlen : pop.length = pop_size) (h : pop_size < n_grad) :
    (cemrlInit sigma_init pop_size damp damp_limit elitism n_grad policy_freq
      batch_size lr noise_std start_timesteps).isOk = true ∧
    gradPhase L policy_freq batch_size actor_steps n_grad lr st pop = none :=
  ⟨rfl, forSlots_oob _ n_grad 0 st pop (Nat.zero_le _) (by omega)⟩

/-- Witness for the amended C6 with `pop_size = 3`, `n_grad = 4`. -/
theorem c6_amended_no_validation_witness :
    (cemrlInit 1 3 1 1 false 4 2 100 1 0 100).isOk = true ∧
    gradPhase lopsTriv 2 100 8 4 1 () (List.replicate 3 0) = none :=
  c6_amended_no_validation lopsTriv 1 1 1 1 1 false 3 4 2 100 100 8 ()
    (List.replicate 3 0) rfl (by decide)

lemma genStep_stopped_eq (o : LoopOracles) (ef : Int) (s : LoopState) :
    (genStep o ef s).2.stopped = (o.hasCb && decide (o.cbRet s.gen = PyRet.pyFalse)) := by
  rw [genStep]
  split
  · next h => simp [h]
  · next h => simp only [Bool.not_eq_true] at h; rw [h]

lemma genStep_gen (o : LoopOracles) (ef : Int) (s : LoopState) :
    (genStep o ef s).2.gen = s.gen := by
  rw [genStep]; split <;> rfl

lemma genStep_tsBefore (o : LoopOracles) (ef : Int) (s : LoopState) :
    (genStep o ef s).2.tsBefore = s.num_timesteps := by
  rw [genStep]; split <;> rfl

lemma genStep_tseBefore (o : LoopOracles) (ef : Int) (s : LoopState) :
    (genStep o ef s).2.tseBefore = s.timesteps_since_eval := by
  rw [genStep]; split <;> rfl

lemma learnLoop_succ_stop (o : LoopOracles) (ef : Int) (total fuel : Nat)
    (s : LoopState) (hlt : s.num_timesteps < total)
    (hstop : (genStep o ef s).2.stopped = true) :
    learnLoop o ef total (fuel + 1) s = ((genStep o ef s).1, [(genStep o ef s).2]) := by
  rw [learnLoop, if_pos hlt]
  simp only [hstop, if_true]

lemma learnLoop_succ_cont (o : LoopOracles) (ef : Int) (total fuel : Nat)
    (s : LoopState) (hlt : s.num_timesteps < total)
    (hstop : (genStep o ef s).2.stopped = false) :
    learnLoop o ef total (fuel + 1) s =
      ((learnLoop o ef total fuel (genStep o ef s).1).1,
       (genStep o ef s).2 :: (learnLoop o ef total fuel (genStep o ef s).1).2) := by
  rw [learnLoop, if_pos hlt]
  simp only [hstop, Bool.false_eq_true, if_false]

lemma learnLoop_succ_done (o : LoopOracles) (ef : Int) (total fuel : Nat)
    (s : LoopState) (hge : ¬ s.num_timesteps < total) :
    learnLoop o ef total (fuel + 1) s = (s, []) := by
  rw [learnLoop, if_neg hge]

lemma getLast?_cons_of_mem {α : Type} (a x : α) (l : List α) (hx : x ∈ l) :
    (a :: l).getLast? = l.getLast? := by
  cases l with
  | nil => cases hx
  | cons b bs => exact List.getLast?_cons_cons

lemma genStep_stop_record (o : LoopOracles) (ef : Int) (s : LoopState)
    (h : (o.hasCb && decide (o.cbRet s.gen = PyRet.pyFalse)) = true) :
    genStep o ef s = (s,
      { gen := s.gen, tsBefore := s.num_timesteps,
        tseBefore := s.timesteps_since_eval, stopped := true,
        ranGradient := false, ranEval := false,
        tseAfterEvalCheck := s.timesteps_since_eval, evalEvents := [],
        rolloutSteps := 0, ranTell := false }) := by
  rw [genStep, if_pos h]

/-- C4: a generation of the loop stops early exactly when a callback is
present and its return value is the `False` singleton (`None` and every other
value continue); the stop occurs right after the ask-phase: a stopped
generation runs no gradient phase, no evaluation, no rollout steps and no
`tell`, and it is the last generation of the run. -/
theorem c4_callback_false_stops (o : LoopOracles) (ef : Int) (total fuel : Nat)
    (s : LoopState) :
    ∀ r ∈ (learnLoop o ef total fuel s).2,
      (r.stopped = true ↔ (o.hasCb = true ∧ o.cbRet r.gen = PyRet.pyFalse)) ∧
      (r.stopped = true → r.ranGradient = false ∧ r.ranEval = false ∧
        r.evalEvents = [] ∧ r.rolloutSteps = 0 ∧ r.ranTell = false ∧
        ((learnLoop o ef total fuel s).2).getLast? = some r) := by
  induction fuel generalizing s with
  | zero => intro r hr; cases hr
  | succ n ih =>
    intro r hr
    by_cases hlt : s.num_timesteps < total
    · cases hstop : (genStep o ef s).2.stopped with
      | false =>
        rw [learnLoop_succ_cont o ef total n s hlt hstop] at hr ⊢
        rcases List.mem_cons.mp hr with rfl | hmem
        · have hcondB := (genStep_stopped_eq o ef s).symm.trans hstop
          refine ⟨?_, fun h => ?_⟩
          · rw [hstop, genStep_gen]
            constructor
            · intro h; cases h
            · rintro ⟨h1, h2⟩
              rw [h1, decide_eq_true h2] at hcondB
              simp at hcondB
          · rw [hstop] at h; cases h
        · obtain ⟨h1, h2⟩ := ih (genStep o ef s).1 r hmem
          refine ⟨h1, fun hs => ?_⟩
          obtain ⟨a1, a2, a3, a4, a5, a6⟩ := h2 hs
          exact ⟨a1, a2, a3, a4, a5,
            (getLast?_cons_of_mem _ r _ hmem).trans a6⟩
      | true =>
        have hcondB := (genStep_stopped_eq o ef s).symm.trans hstop
        rw [learnLoop_succ_stop o ef total n s hlt hstop] at hr ⊢
        rcases List.mem_singleton.mp hr with rfl
        rw [genStep_stop_record o ef s hcondB]
        rw [Bool.and_eq_true, decide_eq_true_eq] at hcondB
        exact ⟨iff_of_true rfl hcondB, fun _ => ⟨rfl, rfl, rfl, rfl, rfl, rfl⟩⟩
    · rw [learnLoop_succ_done o ef total n s hlt] at hr
      cases hr

/-- Concrete oracles for the C4 witness: the callback returns `False` at
generation 2 and `None` otherwise. -/
def oC4 : LoopOracles :=
  { hasCb := true, cbRet := fun g => if g = 2 then PyRet.pyFalse else PyRet.pyNone,
    steps := fun _ => 5 }

/-- The (stopped) final generation record of the C4 demo run. -/
def rC4 : GenRecord :=
  (((learnLoop oC4 (-1) 100 5 initLoopState).2).getLast?).getD
    ⟨0, 0, 0, true, false, false, 0, [], 0, false⟩

/-- Witness for C4: in the demo run the callback's `False` at generation 2
stops the loop right after the ask-phase. -/
theorem c4_callback_false_stops_witness :
    (rC4.stopped = true ↔ (oC4.hasCb = true ∧ oC4.cbRet rC4.gen = PyRet.pyFalse)) ∧
    (rC4.stopped = true → rC4.ranGradient = false ∧ rC4.ranEval = false ∧
      rC4.evalEvents = [] ∧ rC4.rolloutSteps = 0 ∧ rC4.ranTell = false ∧
      ((learnLoop oC4 (-1) 100 5 initLoopState).2).getLast? = some rC4) :=
  c4_callback_false_stops oC4 (-1) 100 5 initLoopState rC4 (by decide)

lemma genStep_cont_record (o : LoopOracles) (ef : Int) (s : LoopState)
    (h : (o.hasCb && decide (o.cbRet s.gen = PyRet.pyFalse)) = false) :
    genStep o ef s =
      (⟨s.num_timesteps + o.steps s.gen,
        (if decide (0 < ef ∧ ef ≤ (s.timesteps_since_eval : Int))
          then s.timesteps_since_eval % ef.toNat else s.timesteps_since_eval) + o.steps s.gen,
        o.steps s.gen, s.gen + 1⟩,
       { gen := s.gen, tsBefore := s.num_timesteps,
         tseBefore := s.timesteps_since_eval, stopped := false,
         ranGradient := decide (0 < s.num_timesteps),
         ranEval := decide (0 < ef ∧ ef ≤ (s.timesteps_since_eval : Int)),
         tseAfterEvalCheck := if decide (0 < ef ∧ ef ≤ (s.timesteps_since_eval : Int))
           then s.timesteps_since_eval % ef.toNat else s.timesteps_since_eval,
         evalEvents := if decide (0 < ef ∧ ef ≤ (s.timesteps_since_eval : Int))
           then [EvalEv.loadMu, EvalEv.evalPolicy] else [],
         rolloutSteps := o.steps s.gen, ranTell := true }) := by
  rw [genStep, if_neg (by simp [h])]

lemma genStep_cont_ts (o : LoopOracles) (ef : Int) (s : LoopState)
    (h : (o.hasCb && decide (o.cbRet s.gen = PyRet.pyFalse)) = false) :
    (genStep o ef s).1.num_timesteps = s.num_timesteps + o.steps s.gen := by
  rw [genStep_cont_record o ef s h]

lemma genStep_cont_gen (o : LoopOracles) (ef : Int) (s : LoopState)
    (h : (o.hasCb && decide (o.cbRet s.gen = PyRet.pyFalse)) = false) :
    (genStep o ef s).1.gen = s.gen + 1 := by
  rw [genStep_cont_record o ef s h]

lemma genStep_stop_state (o : LoopOracles) (ef : Int) (s : LoopState)
    (h : (o.hasCb && decide (o.cbRet s.gen = PyRet.pyFalse)) = true) :
    (genStep o ef s).1 = s := by
  rw [genStep_stop_record o ef s h]

lemma genStep_cont_record_eval (o : LoopOracles) (ef : Int) (s : LoopState)
    (h : (o.hasCb && decide (o.cbRet s.gen = PyRet.pyFalse)) = false)
    (hev : 0 < ef ∧ ef ≤ (s.timesteps_since_eval : Int)) :
    genStep o ef s =
      (⟨s.num_timesteps + o.steps s.gen,
        s.timesteps_since_eval % ef.toNat + o.steps s.gen,
        o.steps s.gen, s.gen + 1⟩,
       { gen := s.gen, tsBefore := s.num_timesteps,
         tseBefore := s.timesteps_since_eval, stopped := false,
         ranGradient := decide (0 < s.num_timesteps), ranEval := true,
         tseAfterEvalCheck := s.timesteps_since_eval % ef.toNat,
         evalEvents := [EvalEv.loadMu, EvalEv.evalPolicy],
         rolloutSteps := o.steps s.gen, ranTell := true }) := by
  rw [genStep_cont_record o ef s h]
  simp [decide_eq_true hev]

lemma genStep_cont_record_noeval (o : LoopOracles) (ef : Int) (s : LoopState)
    (h : (o.hasCb && decide (o.cbRet s.gen = PyRet.pyFalse)) = false)
    (hev : ¬ (0 < ef ∧ ef ≤ (s.timesteps_since_eval : Int))) :
    genStep o ef s =
      (⟨s.num_timesteps + o.steps s.gen,
        s.timesteps_since_eval + o.steps s.gen,
        o.steps s.gen, s.gen + 1⟩,
       { gen := s.gen, tsBefore := s.num_timesteps,
         tseBefore := s.timesteps_since_eval, stopped := false,
         ranGradient := decide (0 < s.num_timesteps), ranEval := false,
         tseAfterEvalCheck := s.timesteps_since_eval,
         evalEvents := [],
         rolloutSteps := o.steps s.gen, ranTell := true }) := by
  rw [genStep_cont_record o ef s h]
  simp [decide_eq_false hev]

lemma learnLoop_trace_mem (o : LoopOracles) (ef : Int) (total : Nat) :
    ∀ (fuel : Nat) (s : LoopState) (r : GenRecord),
      r ∈ (learnLoop o ef total fuel s).2 → ∃ s0, r = (genStep o ef s0).2 := by
  intro fuel
  induction fuel with
  | zero => intro s r hr; cases hr
  | succ n ih =>
    intro s r hr
    by_cases hlt : s.num_timesteps < total
    · cases hstop : (genStep o ef s).2.stopped with
      | false =>
        rw [learnLoop_succ_cont o ef total n s hlt hstop] at hr
        rcases List.mem_cons.mp hr with rfl | hmem
        · exact ⟨s, rfl⟩
        · exact ih (genStep o ef s).1 r hmem
      | true =>
        rw [learnLoop_succ_stop o ef total n s hlt hstop] at hr
        rcases List.mem_singleton.mp hr with rfl
        exact ⟨s, rfl⟩
    · rw [learnLoop_succ_done o ef total n s hlt] at hr
      cases hr

/-- C7: a (non-stopped) generation runs the periodic evaluation iff
`0 < eval_freq ≤ timesteps_since_eval` at the check; when it triggers, the
counter is replaced by its pre-trigger value modulo `eval_freq` (hence in
`[0, eval_freq)` and never negative) and the actor is loaded with the
strategy's mean before `evaluate_policy` is called; otherwise the counter
and the evaluation events are untouched. -/
theorem c7_eval_trigger_and_modulo (o : LoopOracles) (ef : Int) (total fuel : Nat)
    (s : LoopState) :
    ∀ r ∈ (learnLoop o ef total fuel s).2, r.stopped = false →
      (r.ranEval = true ↔ (0 < ef ∧ ef ≤ (r.tseBefore : Int))) ∧
      (r.ranEval = true → r.tseAfterEvalCheck = r.tseBefore % ef.toNat ∧
        (r.tseAfterEvalCheck : Int) < ef ∧ 0 ≤ (r.tseAfterEvalCheck : Int) ∧
        r.evalEvents = [EvalEv.loadMu, EvalEv.evalPolicy]) ∧
      (r.ranEval = false → r.tseAfterEvalCheck = r.tseBefore ∧ r.evalEvents = []) := by
  intro r hr hstop
  obtain ⟨s0, rfl⟩ := learnLoop_trace_mem o ef total fuel s r hr
  have hcondB : (o.hasCb && decide (o.cbRet s0.gen = PyRet.pyFalse)) = false :=
    (genStep_stopped_eq o ef s0).symm.trans hstop
  by_cases hc : 0 < ef ∧ ef ≤ (s0.timesteps_since_eval : Int)
  · rw [genStep_cont_record_eval o ef s0 hcondB hc]
    dsimp only
    have hpos : 0 < ef.toNat := by omega
    have hmod := Nat.mod_lt s0.timesteps_since_eval hpos
    refine ⟨?_, ?_, ?_⟩
    · exact iff_of_true rfl hc
    · exact fun _ => ⟨rfl, by omega, by omega, rfl⟩
    · intro h; cases h
  · rw [genStep_cont_record_noeval o ef s0 hcondB hc]
    dsimp only
    refine ⟨?_, ?_, ?_⟩
    · exact iff_of_false (fun h => by cases h) hc
    · intro h; cases h
    · exact fun _ => ⟨rfl, rfl⟩

/-- Oracles for the C7 witness: no callback, 7 rollout steps per
generation. -/
def oC7 : LoopOracles :=
  { hasCb := false, cbRet := fun _ => PyRet.pyNone, steps := fun _ => 7 }

/-- The third generation record of the C7 demo run (`eval_freq = 5`): its
pre-check counter is 14, so the evaluation triggers and leaves `14 % 5 = 4`. -/
def rC7 : GenRecord :=
  (((learnLoop oC7 5 100 4 initLoopState).2).get? 2).getD
    ⟨0, 0, 0, true, false, false, 0, [], 0, false⟩

/-- Witness for C7 at the third demo generation. -/
theorem c7_eval_trigger_and_modulo_witness :
    (rC7.ranEval = true ↔ (0 < (5 : Int) ∧ (5 : Int) ≤ (rC7.tseBefore : Int))) ∧
    (rC7.ranEval = true → rC7.tseAfterEvalCheck = rC7.tseBefore % (5 : Int).toNat ∧
      (rC7.tseAfterEvalCheck : Int) < 5 ∧ 0 ≤ (rC7.tseAfterEvalCheck : Int) ∧
      rC7.evalEvents = [EvalEv.loadMu, EvalEv.evalPolicy]) ∧
    (rC7.ranEval = false → rC7.tseAfterEvalCheck = rC7.tseBefore ∧ rC7.evalEvents = []) :=
  c7_eval_trigger_and_modulo oC7 5 100 4 initLoopState rC7 (by decide) (by decide)

/-- Supporting fact for the C3 hypothesis that every generation's rollout
accumulates at least one step: `done` starts `False` (line 129), so every
terminating episode runs its body at least once and `episode_timesteps`
strictly increases. -/
lemma runEpisode_steps_pos {Obs : Type} (E : EnvSched Obs) (P : ActionOracles Obs)
    (std ma : ℚ) (stt : Nat) :
    ∀ (fuel : Nat) (s s' : EpState Obs),
      runEpisode E P std ma stt fuel s = some s' →
      s.episode_timesteps < s'.episode_timesteps := by
  intro fuel
  induction fuel with
  | zero => intro s s' h; simp [runEpisode] at h
  | succ n ih =>
    intro s s' h
    rw [runEpisode] at h
    by_cases hd : (episodeStep E P std ma stt s).2
    · simp only [hd, if_pos] at h
      cases h
      rw [episodeStep_timesteps]
      omega
    · simp only [hd] at h
      simp only [Bool.false_eq_true, if_false] at h
      have := ih _ _ h
      rw [episodeStep_timesteps] at this
      omega

lemma c3_aux (o : LoopOracles) (ef : Int) (total : Nat)
    (hsteps : ∀ g, 0 < o.steps g) :
    ∀ (fuel : Nat) (s : LoopState), 1 ≤ s.gen →
      (s.gen = 1 → s.num_timesteps = 0) → (s.gen ≠ 1 → 0 < s.num_timesteps) →
      ∀ r ∈ (learnLoop o ef total fuel s).2, r.stopped = false →
        ((r.ranGradient = true ↔ 0 < r.tsBefore) ∧
         (r.ranGradient = false ↔ r.gen = 1)) := by
  intro fuel
  induction fuel with
  | zero => intro s _ _ _ r hr; cases hr
  | succ n ih =>
    intro s hg1 hgz hgp r hr hstop
    by_cases hlt : s.num_timesteps < total
    · cases hstopb : (genStep o ef s).2.stopped with
      | false =>
        have hcondB := (genStep_stopped_eq o ef s).symm.trans hstopb
        rw [learnLoop_succ_cont o ef total n s hlt hstopb] at hr
        rcases List.mem_cons.mp hr with rfl | hmem
        · rw [genStep_cont_record o ef s hcondB]
          dsimp only
          constructor
          · exact decide_eq_true_iff
          · by_cases hgen : s.gen = 1
            · have hz : s.num_timesteps = 0 := hgz hgen
              rw [hz, hgen]
              simp
            · have hp : 0 < s.num_timesteps := hgp hgen
              rw [decide_eq_true hp]
              simp [hgen]
        · refine ih (genStep o ef s).1 ?_ ?_ ?_ r hmem hstop
          · rw [genStep_cont_gen o ef s hcondB]; omega
          · rw [genStep_cont_gen o ef s hcondB]; omega
          · intro hne
            rw [genStep_cont_ts o ef s hcondB]
            have := hsteps s.gen
            omega
      | true =>
        rw [learnLoop_succ_stop o ef total n s hlt hstopb] at hr
        rcases List.mem_singleton.mp hr with rfl
        rw [hstopb] at hstop
        cases hstop
    · rw [learnLoop_succ_done o ef total n s hlt] at hr
      cases hr

/-- C3: for every non-stopped generation of the loop started from the initial
counters, the gradient phase runs iff `num_timesteps > 0` at the start of the
generation, which happens iff the generation is not the very first one
(assuming every generation's rollout accumulates at least one environment
step, which holds because every episode runs at least one step). -/
theorem c3_gradient_phase_first_generation (o : LoopOracles) (ef : Int)
    (total fuel : Nat) (hsteps : ∀ g, 0 < o.steps g) :
    ∀ r ∈ (learnLoop o ef total fuel initLoopState).2, r.stopped = false →
      ((r.ranGradient = true ↔ 0 < r.tsBefore) ∧
       (r.ranGradient = false ↔ r.gen = 1)) :=
  c3_aux o ef total hsteps fuel initLoopState (le_refl 1) (fun _ => rfl)
    (fun h => absurd rfl h)

/-- Oracles for the C3 witness: no callback, 4 rollout steps per
generation. -/
def oC3 : LoopOracles :=
  { hasCb := false, cbRet := fun _ => PyRet.pyNone, steps := fun _ => 4 }

/-- The second generation record of the C3 demo run. -/
def rC3 : GenRecord :=
  (((learnLoop oC3 (-1) 10 5 initLoopState).2).get? 1).getD
    ⟨0, 0, 0, true, false, false, 0, [], 0, false⟩

/-- Witness for C3 at the second demo generation (`tsBefore = 4 > 0`, so the
gradient phase runs). -/
theorem c3_gradient_phase_first_generation_witness :
    (rC3.ranGradient = true ↔ 0 < rC3.tsBefore) ∧
    (rC3.ranGradient = false ↔ rC3.gen = 1) :=
  c3_gradient_phase_first_generation oC3 (-1) 10 5 (fun _ => Nat.succ_pos 3) rC3
    (by decide) (by decide)

/-- Oracles for C5: the callback returns `False` at its third invocation
(generation 3) and `None` before, with 5 rollout steps per generation. -/
def oC5 : LoopOracles :=
  { hasCb := true, cbRet := fun g => if g = 3 then PyRet.pyFalse else PyRet.pyNone,
    steps := fun _ => 5 }

/-- Counterexample for C5: the callback is invoked at the START of each
generation, right after the ask-phase and before that generation's rollout.
With 5 rollout steps per generation and the callback returning `False` on
generation 3, the loop halts with `num_timesteps = 10` — the steps of
generations 1 and 2 only — not `15`, the value the claim requires when
generation 3's rollout were included. -/
theorem c5_counterexample :
    oC5.cbRet 3 = PyRet.pyFalse ∧
    (learnLoop oC5 (-1) 100 10 initLoopState).1.num_timesteps = 10 ∧
    oC5.steps 1 + oC5.steps 2 + oC5.steps 3 = 15 ∧
    ¬ (learnLoop oC5 (-1) 100 10 initLoopState).1.num_timesteps = 15 := by
  refine ⟨rfl, by decide, rfl, by decide⟩

/-- C5 amended: if the callback first returns `False` on generation 3 (its
third invocation, which happens after generation 3's ask-phase and BEFORE its
gradient, evaluation and rollout phases), `learn` halts with `num_timesteps`
equal to exactly the environment steps completed through generation 2's
rollout phase; generation 3 and all later generations contribute nothing. -/
theorem c5_amended_stop_before_rollout (o : LoopOracles) (ef : Int)
    (total fuel : Nat) (hcb : o.hasCb = true)
    (h1 : o.cbRet 1 ≠ PyRet.pyFalse) (h2 : o.cbRet 2 ≠ PyRet.pyFalse)
    (h3 : o.cbRet 3 = PyRet.pyFalse)
    (htot : o.steps 1 + o.steps 2 < total) :
    (learnLoop o ef total (fuel + 3) initLoopState).1.num_timesteps =
      o.steps 1 + o.steps 2 := by
  have hcond1 : (o.hasCb && decide (o.cbRet initLoopState.gen = PyRet.pyFalse)) = false := by
    show (o.hasCb && decide (o.cbRet 1 = PyRet.pyFalse)) = false
    rw [hcb, Bool.true_and]
    exact decide_eq_false h1
  have hstop1 : (genStep o ef initLoopState).2.stopped = false :=
    (genStep_stopped_eq o ef initLoopState).trans hcond1
  have hlt1 : initLoopState.num_timesteps < total := by
    show (0 : Nat) < total
    omega
  have hg1 : (genStep o ef initLoopState).1.gen = 2 :=
    genStep_cont_gen o ef initLoopState hcond1
  have hts1 : (genStep o ef initLoopState).1.num_timesteps = o.steps 1 := by
    rw [genStep_cont_ts o ef initLoopState hcond1]
    simp [initLoopState]
  have hcond2 : (o.hasCb &&
      decide (o.cbRet (genStep o ef initLoopState).1.gen = PyRet.pyFalse)) = false := by
    rw [hg1, hcb, Bool.true_and]
    exact decide_eq_false h2
  have hstop2 : (genStep o ef (genStep o ef initLoopState).1).2.stopped = false :=
    (genStep_stopped_eq o ef _).trans hcond2
  have hlt2 : (genStep o ef initLoopState).1.num_timesteps < total := by
    rw [hts1]; omega
  have hg2 : (genStep o ef (genStep o ef initLoopState).1).1.gen = 3 := by
    rw [genStep_cont_gen o ef _ hcond2, hg1]
  have hts2 : (genStep o ef (genStep o ef initLoopState).1).1.num_timesteps =
      o.steps 1 + o.steps 2 := by
    rw [genStep_cont_ts o ef _ hcond2, hts1, hg1]
  have hcond3 : (o.hasCb && decide (o.cbRet
      (genStep o ef (genStep o ef initLoopState).1).1.gen = PyRet.pyFalse)) = true := by
    rw [hg2, hcb, Bool.true_and]
    exact decide_eq_true h3
  have hstop3 : (genStep o ef (genStep o ef (genStep o ef initLoopState).1).1).2.stopped = true :=
    (genStep_stopped_eq o ef _).trans hcond3
  have hlt3 : (genStep o ef (genStep o ef initLoopState).1).1.num_timesteps < total := by
    rw [hts2]; omega
  rw [learnLoop_succ_cont o ef total (fuel + 2) initLoopState hlt1 hstop1]
  dsimp only
  rw [learnLoop_succ_cont o ef total (fuel + 1) _ hlt2 hstop2]
  dsimp only
  rw [learnLoop_succ_stop o ef total fuel _ hlt3 hstop3]
  dsimp only
  rw [genStep_stop_state o ef _ hcond3]
  exact hts2

/-- Witness for the amended C5 with the concrete C5 oracles: the run halts
with `num_timesteps = 10 = oC5.steps 1 + oC5.steps 2`. -/
theorem c5_amended_stop_before_rollout_witness :
    (learnLoop oC5 (-1) 100 3 initLoopState).1.num_timesteps =
      oC5.steps 1 + oC5.steps 2 :=
  c5_amended_stop_before_rollout oC5 (-1) 100 0 rfl (by decide) (by decide) rfl
    (by decide)

end CemRl
